import Mathlib

/-
Verification development for the maze-chase simulation core of the
repository (src/apps/pacman.py).

Shallow embedding conventions:
* grid (tile) and pixel coordinates are integers (`ℤ`), as in the source
  where all positions are Python ints;
* Python's `round` on exact dyadic rationals (used by `px_to_cell`) is
  embedded as explicit round-half-to-even helpers `rhe2` / `rhe4`;
* Python sets of tile tuples become `Finset (ℤ × ℤ)`;
* real-time quantities that the source keeps as floats (accumulators,
  frightened timers, the death timer) are modelled as rationals `ℚ`;
* the per-pixel standing masks, built imperatively by `setpix` calls in
  `build_centerline_masks`, are modelled as boolean pixel predicates: a
  pixel is in the mask iff some iteration of the build loop sets it.
-/

set_option maxHeartbeats 4000000

namespace PacmanCore

/-- The fixed 28x31 ASCII wall map (`WALLMAP` in the source). -/
def WALLMAP : List String := [
"XXXXXXXXXXXXXXXXXXXXXXXXXXXX",
"X            XX            X",
"X XXXX XXXXX XX XXXXX XXXX X",
"X XXXX XXXXX XX XXXXX XXXX X",
"X XXXX XXXXX XX XXXXX XXXX X",
"X                          X",
"X XXXX XX XXXXXXXX XX XXXX X",
"X XXXX XX XXXXXXXX XX XXXX X",
"X      XX    XX    XX      X",
"XXXXXX XXXXX XX XXXXX XXXXXX",
"     X XXXXX XX XXXXX X     ",
"     X XX          XX X     ",
"     X XX XXXXXXXX XX X     ",
"XXXXXX XX X      X XX XXXXXX",
"          X      X          ",
"XXXXXX XX X      X XX XXXXXX",
"     X XX XXXXXXXX XX X     ",
"     X XX          XX X     ",
"     X XX XXXXXXXX XX X     ",
"XXXXXX XX XXXXXXXX XX XXXXXX",
"X            XX            X",
"X XXXX XXXXX XX XXXXX XXXX X",
"X XXXX XXXXX XX XXXXX XXXX X",
"X   XX                XX   X",
"XXX XX XX XXXXXXXX XX XX XXX",
"XXX XX XX XXXXXXXX XX XX XXX",
"X      XX    XX    XX      X",
"X XXXXXXXXXX XX XXXXXXXXXX X",
"X XXXXXXXXXX XX XXXXXXXXXX X",
"X                          X",
"XXXXXXXXXXXXXXXXXXXXXXXXXXXX"]

/-- Source `ROWS = len(WALLMAP)`. -/
def ROWS : Nat := WALLMAP.length

/-- Source `COLS = len(WALLMAP[0])`. -/
def COLS : Nat := (WALLMAP.headD "").length

lemma ROWS_eq : ROWS = 31 := by decide

lemma COLS_eq : COLS = 28 := by decide

lemma ROWS_int : (ROWS : ℤ) = 31 := by norm_num [ROWS_eq]

lemma COLS_int : (COLS : ℤ) = 28 := by norm_num [COLS_eq]

-- ghost house + gate constants from the source
def GATE_CY : ℤ := 12

/-- Source `GATE_XS = list(range(11, 17))`. -/
def GATE_XS : List ℤ := [11, 12, 13, 14, 15, 16]

def HOUSE_X0 : ℤ := 10
def HOUSE_X1 : ℤ := 17
def HOUSE_Y0 : ℤ := 11
def HOUSE_Y1 : ℤ := 18

-- scale / layout constants
def CELL_X : ℤ := 4
def CELL_Y : ℤ := 2
def OX : ℤ := 0
def OY : ℤ := 1
def W : ℤ := 128
def H : ℤ := 64

/-- Source `MAZE_W = OX + COLS * CELL_X`. -/
def MAZE_W : ℤ := OX + (COLS : ℤ) * CELL_X

lemma MAZE_W_eq : MAZE_W = 112 := by norm_num [MAZE_W, OX, CELL_X, COLS_int]

/-- Character of row `cy`, column `cx` of a wall map (`m[cy][cx]`); only
evaluated at in-bounds coordinates in the source. -/
def wallmap_char (m : List String) (cx cy : ℤ) : Char :=
  ((m.getD cy.toNat "").toList).getD cx.toNat ' '

/-- Source `in_bounds(cx, cy)`. -/
def in_bounds (cx cy : ℤ) : Bool :=
  decide (0 ≤ cx ∧ cx < (COLS : ℤ) ∧ 0 ≤ cy ∧ cy < (ROWS : ℤ))

/-- Source `is_wall(cx, cy)`: out-of-bounds tiles count as walls. -/
def is_wall (cx cy : ℤ) : Bool :=
  if in_bounds cx cy then wallmap_char WALLMAP cx cy == 'X' else true

/-- Source `is_gate_tile(cx, cy)`. -/
def is_gate_tile (cx cy : ℤ) : Bool :=
  (cy == GATE_CY) && GATE_XS.contains cx

/-- Source `in_house(cx, cy)`. -/
def in_house (cx cy : ℤ) : Bool :=
  decide (HOUSE_X0 ≤ cx ∧ cx ≤ HOUSE_X1 ∧ HOUSE_Y0 ≤ cy ∧ cy ≤ HOUSE_Y1)

/-- Source `is_open_for_pac(cx, cy)`: gate tiles are closed for the player. -/
def is_open_for_pac (cx cy : ℤ) : Bool :=
  if is_gate_tile cx cy then false else !(is_wall cx cy)

/-- Source `is_open_for_ghost(cx, cy)`: gates are passable for pursuers. -/
def is_open_for_ghost (cx cy : ℤ) : Bool :=
  !(is_wall cx cy) || is_gate_tile cx cy

/-- Source `cell_center(cx, cy)`: the tile-center pixel of a tile. -/
def cell_center (cx cy : ℤ) : ℤ × ℤ :=
  (OX + cx * CELL_X + CELL_X / 2, OY + cy * CELL_Y + CELL_Y / 2)

lemma cell_center_eq (cx cy : ℤ) : cell_center cx cy = (4 * cx + 2, 2 * cy + 2) := by
  simp only [cell_center, OX, CELL_X, OY, CELL_Y, Prod.mk.injEq]
  omega

/-- Round-half-to-even of `n / 2` (Python's `round` on an exact `k.5`). -/
def rhe2 (n : ℤ) : ℤ :=
  if n % 2 = 0 then n / 2
  else if (n / 2) % 2 = 0 then n / 2 else n / 2 + 1

/-- Round-half-to-even of `n / 4`. -/
def rhe4 (n : ℤ) : ℤ :=
  if n % 4 = 0 ∨ n % 4 = 1 then n / 4
  else if n % 4 = 3 then n / 4 + 1
  else if (n / 4) % 2 = 0 then n / 4 else n / 4 + 1

/-- Source `px_to_cell(px, py)`: nearest tile of a pixel, clamped into the grid.
Python computes `int(round((px - (OX + CELL_X//2)) / CELL_X))` (an exact
dyadic value, so `round` is round-half-to-even) and clamps with
`max(0, min(COLS-1, .))`; similarly for the row. -/
def px_to_cell (px py : ℤ) : ℤ × ℤ :=
  (max 0 (min ((COLS : ℤ) - 1) (rhe4 (px - (OX + CELL_X / 2)))),
   max 0 (min ((ROWS : ℤ) - 1) (rhe2 (py - (OY + CELL_Y / 2)))))

/-- Source `is_at_tile_center(px, py)`. -/
def is_at_tile_center (px py : ℤ) : Bool :=
  let c := px_to_cell px py
  let t := cell_center c.1 c.2
  (px == t.1) && (py == t.2)

/-- Source `collide(px, py, gx, gy, r)`: Chebyshev-ball overlap test. -/
def collide (px py gx gy r : ℤ) : Bool :=
  decide (|px - gx| ≤ r ∧ |py - gy| ≤ r)

lemma px_to_cell_snd (px py : ℤ) :
    (px_to_cell px py).2 = max 0 (min 30 (rhe2 (py - 2))) := by
  simp [px_to_cell, OY, CELL_Y, ROWS_int]

lemma px_to_cell_fst (px py : ℤ) :
    (px_to_cell px py).1 = max 0 (min 27 (rhe4 (px - 2))) := by
  simp [px_to_cell, OX, CELL_X, COLS_int]

lemma rhe2_two_mul (k : ℤ) : rhe2 (2 * k) = k := by
  unfold rhe2
  split_ifs <;> omega

lemma rhe2_odd (k : ℤ) : rhe2 (2 * k + 1) = k ∨ rhe2 (2 * k + 1) = k + 1 := by
  simp only [rhe2]
  split_ifs <;> omega

/-- Row component of `px_to_cell` at a row-centre `y`-coordinate. -/
lemma px_to_cell_snd_center (px : ℤ) (k : ℤ) (h0 : 0 ≤ k) (h1 : k ≤ 30) :
    (px_to_cell px (2 * k + 2)).2 = k := by
  rw [px_to_cell_snd]
  have : (2 * k + 2 : ℤ) - 2 = 2 * k := by ring
  rw [this, rhe2_two_mul]
  omega

/-- Row component of `px_to_cell` halfway between two row centres: the
banker's rounding picks one of the two adjacent rows. -/
lemma px_to_cell_snd_mid (px : ℤ) (k : ℤ) (h0 : 0 ≤ k) (h1 : k ≤ 29) :
    (px_to_cell px (2 * k + 3)).2 = k ∨ (px_to_cell px (2 * k + 3)).2 = k + 1 := by
  rw [px_to_cell_snd]
  have h : (2 * k + 3 : ℤ) - 2 = 2 * k + 1 := by ring
  rw [h]
  rcases rhe2_odd k with h2 | h2 <;> rw [h2] <;> omega

/-!  Centerline standing masks (`build_centerline_masks` / `can_stand`).

The source builds two `H x W` boolean arrays by iterating over all tiles
and calling `setpix`.  Here a pixel belongs to a mask iff some iteration
of that build loop sets it: `onScreen` is the `setpix` guard, and
`pac_cell_pixels cx cy x y` (resp. `ghost_cell_pixels`) says that the
loop iteration for tile `(cx, cy)` sets pixel `(x, y)` in the pac
(resp. ghost) mask. -/

/-- The `setpix` guard: `0 <= x < W and 0 <= y < H and x < MAZE_W`. -/
def onScreen (x y : ℤ) : Bool :=
  decide (0 ≤ x ∧ x < W ∧ 0 ≤ y ∧ y < H ∧ x < MAZE_W)

/-- Pixels of the pac mask contributed by the loop iteration at tile
`(cx, cy)`: the tile centre when the tile is open for the player, plus the
horizontal/vertical band to each neighbouring open tile. -/
def pac_cell_pixels (cx cy : ℕ) (x y : ℤ) : Bool :=
  let c := cell_center cx cy
  -- `if is_wall(cx,cy) and not is_gate_tile(cx,cy): continue`
  !(is_wall cx cy && !(is_gate_tile cx cy)) &&
  ((is_open_for_pac cx cy && (x == c.1 && y == c.2)) ||
   -- band to the right neighbour (pixels set when both tiles are pac-open)
   (decide (cx + 1 < COLS) && is_open_for_ghost (cx + 1 : ℕ) cy &&
    is_open_for_pac cx cy && is_open_for_pac (cx + 1 : ℕ) cy &&
    let c2 := cell_center (cx + 1 : ℕ) cy
    decide (min c.1 c2.1 ≤ x ∧ x ≤ max c.1 c2.1) && (y == c.2)) ||
   -- band to the lower neighbour
   (decide (cy + 1 < ROWS) && is_open_for_ghost cx (cy + 1 : ℕ) &&
    is_open_for_pac cx cy && is_open_for_pac cx (cy + 1 : ℕ) &&
    let c2 := cell_center cx (cy + 1 : ℕ)
    decide (min c.2 c2.2 ≤ y ∧ y ≤ max c.2 c2.2) && (x == c.1)))

/-- Pixels of the ghost mask contributed by the loop iteration at tile
`(cx, cy)`: bands are set for the ghost mask whenever the neighbour is
ghost-open, without the pac-open condition. -/
def ghost_cell_pixels (cx cy : ℕ) (x y : ℤ) : Bool :=
  let c := cell_center cx cy
  !(is_wall cx cy && !(is_gate_tile cx cy)) &&
  ((is_open_for_ghost cx cy && (x == c.1 && y == c.2)) ||
   (decide (cx + 1 < COLS) && is_open_for_ghost (cx + 1 : ℕ) cy &&
    let c2 := cell_center (cx + 1 : ℕ) cy
    decide (min c.1 c2.1 ≤ x ∧ x ≤ max c.1 c2.1) && (y == c.2)) ||
   (decide (cy + 1 < ROWS) && is_open_for_ghost cx (cy + 1 : ℕ) &&
    let c2 := cell_center cx (cy + 1 : ℕ)
    decide (min c.2 c2.2 ≤ y ∧ y ≤ max c.2 c2.2) && (x == c.1)))

/-- Membership in the player's standing mask (`pac` in
`build_centerline_masks`). -/
def pacMaskAt (x y : ℤ) : Bool :=
  onScreen x y &&
  (List.range ROWS).any (fun cy => (List.range COLS).any (fun cx =>
    pac_cell_pixels cx cy x y))

/-- Membership in the pursuers' standing mask (`ghost` in
`build_centerline_masks`), including the final loop that re-marks the
gate-tile centres. -/
def ghostMaskAt (x y : ℤ) : Bool :=
  onScreen x y &&
  ((List.range ROWS).any (fun cy => (List.range COLS).any (fun cx =>
     ghost_cell_pixels cx cy x y)) ||
   GATE_XS.any (fun gcx =>
     let c := cell_center gcx GATE_CY
     (x == c.1) && (y == c.2)))

/-- Source `can_stand(mask, x, y)`. -/
def can_stand (mask : ℤ → ℤ → Bool) (x y : ℤ) : Bool :=
  decide (0 ≤ x ∧ x < W ∧ 0 ≤ y ∧ y < H) && mask x y

/-!  Tunnel rows and the tunnel wrap. -/

/-- Source `TUNNEL_ROWS`: rows whose leftmost and rightmost tiles are both open
for pursuers. -/
def TUNNEL_ROWS : List ℕ :=
  (List.range ROWS).filter (fun cy =>
    is_open_for_ghost 0 cy && is_open_for_ghost ((COLS : ℤ) - 1) cy)

/-- Membership test `cy in TUNNEL_ROWS` for the (clamped, hence non-negative) row index
produced by `px_to_cell`. -/
def in_tunnel_rows (cy : ℤ) : Bool :=
  TUNNEL_ROWS.any (fun r => (r : ℤ) == cy)

lemma TUNNEL_ROWS_eq : TUNNEL_ROWS = [10, 11, 12, 14, 16, 17, 18] := by decide

/-- Source `tunnel_wrap_on_centerline(x, y, dirx)`. -/
def tunnel_wrap (x y dirx : ℤ) : ℤ × ℤ :=
  let c := px_to_cell x y
  if !(in_tunnel_rows c.2) then (x, y)
  else
    let l := cell_center 0 c.2
    let r := cell_center ((COLS : ℤ) - 1) c.2
    if dirx < 0 ∧ x ≤ l.1 then r
    else if dirx > 0 ∧ x ≥ r.1 then l
    else (x, l.2)

/-- One iteration of the player's per-pixel movement loop
(`main`, the `while p_acc >= 1.0` body): tunnel wrap when moving
horizontally, then a one-pixel step if the destination pixel is passable. -/
def pac_step_pixel (x y dx dy : ℤ) : ℤ × ℤ :=
  let p := if dx ≠ 0 then tunnel_wrap x y dx else (x, y)
  let n := (p.1 + dx, p.2 + dy)
  if can_stand pacMaskAt n.1 n.2 then n else p

/-- One iteration of a pursuer's per-pixel movement loop (`main`, the
`while g_acc >= 1.0` body; on a blocked step the source `break`s, leaving
the position unchanged, exactly as here). -/
def ghost_step_pixel (x y dx dy : ℤ) : ℤ × ℤ :=
  let p := if dx ≠ 0 then tunnel_wrap x y dx else (x, y)
  let n := (p.1 + dx, p.2 + dy)
  if can_stand ghostMaskAt n.1 n.2 then n else p

/-!  Pellet construction (`flood_reachable`, `pick_start_tile_pac`,
`build_pellets`). -/

/-- Source `DIRS` values in insertion order L, R, U, D (`DIR_LIST`). -/
def DIR_L : ℤ × ℤ := (-1, 0)
def DIR_R : ℤ × ℤ := (1, 0)
def DIR_U : ℤ × ℤ := (0, -1)
def DIR_D : ℤ × ℤ := (0, 1)

def DIR_LIST : List (ℤ × ℤ) := [DIR_L, DIR_R, DIR_U, DIR_D]

/-- One pop of the BFS queue of `flood_reachable`: scan the four
directions, enqueueing and marking unseen open in-bounds neighbours.
The `while q` loop is embedded with explicit fuel; every tile is enqueued
at most once, so any fuel at least `ROWS * COLS + 1` reaches the empty
queue. -/
def flood_aux : ℕ → List (ℤ × ℤ) → Finset (ℤ × ℤ) → Finset (ℤ × ℤ)
  | 0, _, seen => seen
  | _ + 1, [], seen => seen
  | fuel + 1, c :: q, seen =>
      let step := DIR_LIST.foldl
        (fun (acc : List (ℤ × ℤ) × Finset (ℤ × ℤ)) d =>
          let n := (c.1 + d.1, c.2 + d.2)
          if n ∈ acc.2 then acc
          else if in_bounds n.1 n.2 && is_open_for_pac n.1 n.2 then
            (acc.1 ++ [n], insert n acc.2)
          else acc)
        (q, seen)
      flood_aux fuel step.1 step.2

/-- Source `flood_reachable(start)`. -/
def flood_reachable (start : ℤ × ℤ) : Finset (ℤ × ℤ) :=
  if !(is_open_for_pac start.1 start.2) then ∅
  else flood_aux (ROWS * COLS + 1) [start] {start}

/-- Source `pick_start_tile_pac()`: middle column, lowest open row scanning
`range(ROWS-2, 0, -1)`, with fallback `(1, 1)`. -/
def pick_start_tile_pac : ℤ × ℤ :=
  let cx : ℤ := (COLS : ℤ) / 2
  match (List.range' 1 (ROWS - 2)).reverse.find? (fun cy => is_open_for_pac cx cy) with
  | some cy => (cx, (cy : ℤ))
  | none => (1, 1)

lemma pick_start_tile_pac_eq : pick_start_tile_pac = (14, 29) := by decide

/-- The four corner power-pellet candidate tiles of `build_pellets`. -/
def power_candidates : List (ℤ × ℤ) :=
  [(1, 3), ((COLS : ℤ) - 2, 3), (1, 23), ((COLS : ℤ) - 2, 23)]

/-- Source `build_pellets(reachable)`: every reachable non-house tile becomes a
pellet; each reachable corner candidate is moved from the pellet set to
the power set. -/
def build_pellets (reachable : Finset (ℤ × ℤ)) :
    Finset (ℤ × ℤ) × Finset (ℤ × ℤ) :=
  let pellets := reachable.filter (fun c => in_house c.1 c.2 = false)
  power_candidates.foldl
    (fun (pp : Finset (ℤ × ℤ) × Finset (ℤ × ℤ)) c =>
      if c ∈ reachable then (pp.1.erase c, insert c pp.2) else pp)
    (pellets, ∅)

/-!  Pursuer direction choice (`ghost_possible_dirs`, `ghost_choose_dir`). -/

/-- Source `ghost_possible_dirs(mask, x, y)` for the pursuer mask. -/
def ghost_possible_dirs (x y : ℤ) : List (ℤ × ℤ) :=
  DIR_LIST.filter (fun d => can_stand ghostMaskAt (x + d.1) (y + d.2))

/-- The `md` quantity of `score_dir` inside `ghost_choose_dir`: Manhattan
distance from the position one pixel ahead in direction `d` to the target
pixel. -/
def step_pixel_dist (gx gy tx ty : ℤ) (d : ℤ × ℤ) : ℤ :=
  |tx - (gx + d.1)| + |ty - (gy + d.2)|

/-- Source `score_dir(d)`: the sort key (negated when frightened, so that the
minimum key flees the target). -/
def score_dir (gx gy tx ty : ℤ) (frightened : Bool) (d : ℤ × ℤ) : ℤ :=
  if frightened then -(step_pixel_dist gx gy tx ty d) else step_pixel_dist gx gy tx ty d

/-- Stable insertion into an ascending run; `sort_by_key` below is a
stable ascending sort and therefore extensionally equal to Python's
`list.sort(key=...)`. -/
def insert_by_key (key : (ℤ × ℤ) → ℤ) (a : ℤ × ℤ) :
    List (ℤ × ℤ) → List (ℤ × ℤ)
  | [] => [a]
  | b :: bs => if key a ≤ key b then a :: b :: bs else b :: insert_by_key key a bs

def sort_by_key (key : (ℤ × ℤ) → ℤ) (l : List (ℤ × ℤ)) : List (ℤ × ℤ) :=
  l.foldr (insert_by_key key) []

/-- The candidate list `choices` of `ghost_choose_dir`:
`[d for d in dirs if d != rev] or dirs`. -/
def ghost_choices (dirs : List (ℤ × ℤ)) (gdir : ℤ × ℤ) : List (ℤ × ℤ) :=
  let rev := (-gdir.1, -gdir.2)
  if dirs.filter (fun d => d != rev) = [] then dirs
  else dirs.filter (fun d => d != rev)

/-- Source `ghost_choose_dir` on the branch where the random tie-break is not
taken: the first element of the stably sorted candidate list. -/
def ghost_choose_dir_det (gx gy : ℤ) (gdir : ℤ × ℤ) (target : ℤ × ℤ)
    (frightened : Bool) : ℤ × ℤ :=
  let dirs := ghost_possible_dirs gx gy
  if dirs = [] then (0, 0)
  else
    (sort_by_key (score_dir gx gy target.1 target.2 frightened)
      (ghost_choices dirs gdir)).headD (0, 0)

/-- The set of values `ghost_choose_dir` can return over all draws of the
random tie-break: `choices[0]`, or one of `choices[:2]` when the random
branch fires (possible only with more than one candidate, so `take 2`
covers both branches). -/
def ghost_choose_outcomes (gx gy : ℤ) (gdir : ℤ × ℤ) (target : ℤ × ℤ)
    (frightened : Bool) : List (ℤ × ℤ) :=
  let dirs := ghost_possible_dirs gx gy
  if dirs = [] then [(0, 0)]
  else
    (sort_by_key (score_dir gx gy target.1 target.2 frightened)
      (ghost_choices dirs gdir)).take 2

/-- The claim-side (spec-worded) quantity for the pursuer-AI refinement
claim: Manhattan distance from the centre of the *resulting tile* (the
tile one step from the pursuer's current tile in direction `d`) to the
target pixel.  This follows the spec's words and is compared against the
source's `step_pixel_dist`. -/
def spec_resulting_tile_dist (gx gy tx ty : ℤ) (d : ℤ × ℤ) : ℤ :=
  let c := px_to_cell gx gy
  let p := cell_center (c.1 + d.1) (c.2 + d.2)
  |tx - p.1| + |ty - p.2|

/-!  The player's direction latch (`main`, the lines
`wx, wy = game["want"]; if can_stand(pac_mask, px+wx, py+wy): dir = want`). -/

/-- The per-tick update of the player's current direction from the
desired direction. -/
def pac_latch (px py : ℤ) (dir want : ℤ × ℤ) : ℤ × ℤ :=
  if can_stand pacMaskAt (px + want.1) (py + want.2) then want else dir

/-!  Game state (`new_game` / `reset_level` and the per-tick transitions
used by the claims).  Fields that are purely cosmetic rendering state in
the source (`mouth_open`, `mouth_timer`, `power_on`, `power_timer`,
`start_time`, `time_offset`, `last_menu_toggle`, the ghost colour) are
omitted; the per-ghost accumulator dict `g_acc[name]` is stored inside
the per-ghost record as `acc`. -/

inductive GhostName
  | blinky
  | pinky
  | inky
  | clyde
deriving DecidableEq

/-- Source `GHOST_HOME_TILES`. -/
def ghost_home_tile : GhostName → ℤ × ℤ
  | .blinky => (13, 14)
  | .pinky => (14, 14)
  | .inky => (13, 15)
  | .clyde => (14, 15)

structure GhostState where
  x : ℤ
  y : ℤ
  dir : ℤ × ℤ
  fright : ℚ
  home : ℤ × ℤ
  acc : ℚ

structure GameState where
  score : ℕ
  hiscore : ℕ
  lives : ℤ
  level : ℕ
  pellets : Finset (ℤ × ℤ)
  power : Finset (ℤ × ℤ)
  px : ℤ
  py : ℤ
  dir : ℤ × ℤ
  want : ℤ × ℤ
  p_acc : ℚ
  ghosts : GhostName → GhostState
  dead : Bool
  dead_t : ℚ
  fright_chain : ℕ
  waiting : Bool
  menu : Bool
  menu_idx : ℕ

/-- Source `FRIGHT_DURATION = 10.5` seconds. -/
def FRIGHT_DURATION : ℚ := 10.5

/-- The ghost record placed at its home tile centre, facing up, with
frightened timer and accumulator cleared (used by `reset_level`,
`new_game` and the death respawn). -/
def ghost_at_home (n : GhostName) : GhostState :=
  let h := ghost_home_tile n
  { x := (cell_center h.1 h.2).1, y := (cell_center h.1 h.2).2,
    dir := DIR_U, fright := 0, home := h, acc := 0 }

/-- Source `reset_level(state)`; the source binds `ps`, `reachable`, `pellets`
and `power` locally, inlined here. -/
def reset_level (g : GameState) : GameState :=
  { g with
    pellets := (build_pellets (flood_reachable pick_start_tile_pac)).1,
    power := (build_pellets (flood_reachable pick_start_tile_pac)).2,
    px := (cell_center pick_start_tile_pac.1 pick_start_tile_pac.2).1,
    py := (cell_center pick_start_tile_pac.1 pick_start_tile_pac.2).2,
    dir := DIR_L, want := DIR_L, p_acc := 0,
    ghosts := ghost_at_home,
    menu := false, menu_idx := 0, fright_chain := 0, waiting := true }

/-- Source `new_game(hiscore)`. -/
def new_game (hiscore : ℕ) : GameState :=
  reset_level
    { score := 0, hiscore := hiscore, lives := 3, level := 1,
      pellets := ∅, power := ∅, px := 0, py := 0,
      dir := DIR_L, want := DIR_L, p_acc := 0,
      ghosts := ghost_at_home,
      dead := false, dead_t := 0, fright_chain := 0, waiting := true,
      menu := false, menu_idx := 0 }

/-- The end-of-tick level-completion check (`main`):
`if len(pellets) == 0 and len(power) == 0: level += 1; lives = 3;
reset_level(game)`. -/
def level_advance (g : GameState) : GameState :=
  if g.pellets = ∅ ∧ g.power = ∅ then
    reset_level { g with level := g.level + 1, lives := 3 }
  else g

/-- Pellet / power-pellet consumption (`main`): evaluated only when the
player's pixel position equals its tile centre. -/
def eat_step (g : GameState) : GameState :=
  let c := px_to_cell g.px g.py
  let t := cell_center c.1 c.2
  if g.px = t.1 ∧ g.py = t.2 then
    let g1 :=
      if c ∈ g.pellets then
        { g with pellets := g.pellets.erase c, score := g.score + 10 }
      else g
    if c ∈ g1.power then
      { g1 with
        power := g1.power.erase c, score := g1.score + 50,
        ghosts := fun n => { g1.ghosts n with fright := FRIGHT_DURATION },
        fright_chain := 0 }
    else g1
  else g

/-- Player/pursuer collision resolution for one pursuer (`main`): a
frightened pursuer is eaten (chain multiplier increments, exponential
capture score, teleport home); otherwise the Dying sub-state begins. -/
def ghost_collide (g : GameState) (n : GhostName) : GameState :=
  let gh := g.ghosts n
  if collide g.px g.py gh.x gh.y 1 then
    if gh.fright > 0 then
      let chain := g.fright_chain + 1
      { g with
        fright_chain := chain,
        score := g.score + 200 * 2 ^ (max 0 (chain - 1)),
        ghosts := fun m =>
          if m = n then
            { gh with
              x := (cell_center gh.home.1 gh.home.2).1,
              y := (cell_center gh.home.1 gh.home.2).2,
              dir := DIR_U, fright := 0, acc := 0 }
          else g.ghosts m }
    else { g with dead := true, dead_t := 0 }
  else g

/-- The pure score/chain component of a frightened capture
(`fright_chain += 1; score += 200 * 2 ** max(0, fright_chain - 1)`). -/
def capture_score_update (sc : ℕ × ℕ) : ℕ × ℕ :=
  let chain := sc.2 + 1
  (sc.1 + 200 * 2 ^ (max 0 (chain - 1)), chain)

/-- Iterating `k` consecutive frightened captures starting from score `s` and a
chain multiplier just reset to zero by a power pellet. -/
def capture_iter (s : ℕ) : ℕ → ℕ × ℕ
  | 0 => (s, 0)
  | k + 1 => capture_score_update (capture_iter s k)

/-- The death-handling block at the top of the tick (`main`): accumulate
the death timer; after one second, decrement lives and either respawn
into Waiting or flush the high score and start a new game. -/
def death_step (g : GameState) (elapsed : ℚ) : GameState :=
  if g.dead then
    let t := g.dead_t + elapsed
    if t ≥ 1 then
      let lives := g.lives - 1
      if lives ≤ 0 then
        new_game (if g.score > g.hiscore then g.score else g.hiscore)
      else
        let ps := pick_start_tile_pac
        { g with
          dead_t := 0, dead := false, lives := lives,
          px := (cell_center ps.1 ps.2).1, py := (cell_center ps.1 ps.2).2,
          dir := DIR_L, want := DIR_L, p_acc := 0,
          ghosts := fun n =>
            let gh := g.ghosts n
            { gh with
              x := (cell_center gh.home.1 gh.home.2).1,
              y := (cell_center gh.home.1 gh.home.2).2,
              dir := DIR_U, fright := 0, acc := 0 },
          fright_chain := 0, waiting := true }
    else { g with dead_t := t }
  else g

/-!  Maze-layout queries generalised over the layout constant.

The source performs no validation of `WALLMAP`: `ROWS`/`COLS` and every
query read the literal directly.  To examine the behaviour on a malformed
layout, the same code is embedded with the layout as a parameter. -/

/-- Source `len(m)` for a candidate layout. -/
def rows_of (m : List String) : ℕ := m.length

/-- Source `len(m[0])` for a candidate layout. -/
def cols_of (m : List String) : ℕ := (m.headD "").length

def in_bounds_gen (m : List String) (cx cy : ℤ) : Bool :=
  decide (0 ≤ cx ∧ cx < (cols_of m : ℤ) ∧ 0 ≤ cy ∧ cy < (rows_of m : ℤ))

def is_wall_gen (m : List String) (cx cy : ℤ) : Bool :=
  if in_bounds_gen m cx cy then wallmap_char m cx cy == 'X' else true

def is_open_for_ghost_gen (m : List String) (cx cy : ℤ) : Bool :=
  !(is_wall_gen m cx cy) || is_gate_tile cx cy

/-- The module-level `TUNNEL_ROWS` computation, over a candidate layout. -/
def tunnel_rows_gen (m : List String) : List ℕ :=
  (List.range (rows_of m)).filter (fun cy =>
    is_open_for_ghost_gen m 0 cy && is_open_for_ghost_gen m ((cols_of m : ℤ) - 1) cy)

/-- A layout is rectangular when every row has the width of the first
row. -/
def is_rectangular (m : List String) : Bool :=
  m.all (fun r => r.length == cols_of m)

/-- A malformed (non-rectangular) layout: identical to `WALLMAP` except
that row 1 carries one extra trailing character.  Python runs the whole
module-level startup on such a layout without raising, because every
access stays within each row's length. -/
def BADMAP : List String :=
  match WALLMAP with
  | r0 :: r1 :: rest => r0 :: (r1 ++ "X") :: rest
  | l => l

/-!  Helper lemmas about openness, tunnel rows, and the masks. -/

lemma open_pac_elim {cx cy : ℤ} (h : is_open_for_pac cx cy = true) :
    is_wall cx cy = false ∧ is_gate_tile cx cy = false := by
  unfold is_open_for_pac at h
  by_cases hg : is_gate_tile cx cy = true
  · simp [hg] at h
  · rw [Bool.not_eq_true] at hg
    rw [if_neg (by simp [hg])] at h
    exact ⟨by simpa using h, hg⟩

lemma pac_open_filter {cx cy : ℤ} (h : is_open_for_pac cx cy = true) :
    (!(is_wall cx cy && !(is_gate_tile cx cy))) = true := by
  obtain ⟨hw, _⟩ := open_pac_elim h
  simp [hw]

lemma ghost_open_filter {cx cy : ℤ} (h : is_open_for_ghost cx cy = true) :
    (!(is_wall cx cy && !(is_gate_tile cx cy))) = true := by
  unfold is_open_for_ghost at h
  cases hw : is_wall cx cy <;> cases hg : is_gate_tile cx cy <;>
    simp_all

lemma filter_ghost_open {cx cy : ℤ}
    (h : (!(is_wall cx cy && !(is_gate_tile cx cy))) = true) :
    is_open_for_ghost cx cy = true := by
  unfold is_open_for_ghost
  cases hw : is_wall cx cy <;> cases hg : is_gate_tile cx cy <;>
    simp_all

lemma gate_tile_col0 (r : ℤ) : is_gate_tile 0 r = false := by
  unfold is_gate_tile
  rw [(by decide : GATE_XS.contains (0 : ℤ) = false)]
  simp

lemma gate_tile_col27 (r : ℤ) : is_gate_tile 27 r = false := by
  unfold is_gate_tile
  rw [(by decide : GATE_XS.contains (27 : ℤ) = false)]
  simp

lemma ghost_open_no_gate_pac {cx cy : ℤ} (hg : is_gate_tile cx cy = false)
    (ho : is_open_for_ghost cx cy = true) : is_open_for_pac cx cy = true := by
  unfold is_open_for_ghost at ho
  rw [hg, Bool.or_false] at ho
  unfold is_open_for_pac
  rw [if_neg (by simp [hg]), ho]

lemma in_tunnel_rows_elim {r : ℤ} (h : in_tunnel_rows r = true) :
    0 ≤ r ∧ r ≤ 30 ∧ is_open_for_ghost 0 r = true ∧
      is_open_for_ghost 27 r = true := by
  unfold in_tunnel_rows at h
  obtain ⟨t, ht, hbeq⟩ := List.any_eq_true.mp h
  rw [beq_iff_eq] at hbeq
  subst hbeq
  unfold TUNNEL_ROWS at ht
  rw [List.mem_filter] at ht
  obtain ⟨htr, hopen⟩ := ht
  rw [List.mem_range, ROWS_eq] at htr
  rw [Bool.and_eq_true] at hopen
  have hcol : ((COLS : ℤ) - 1) = 27 := by rw [COLS_int]; norm_num
  rw [hcol] at hopen
  exact ⟨by omega, by omega, hopen.1, hopen.2⟩

lemma tunnel_row_pac_open0 {r : ℤ} (h : in_tunnel_rows r = true) :
    is_open_for_pac 0 r = true :=
  ghost_open_no_gate_pac (gate_tile_col0 r) (in_tunnel_rows_elim h).2.2.1

lemma tunnel_row_pac_open27 {r : ℤ} (h : in_tunnel_rows r = true) :
    is_open_for_pac 27 r = true :=
  ghost_open_no_gate_pac (gate_tile_col27 r) (in_tunnel_rows_elim h).2.2.2

/-- Introduction: the centre pixel of any player-open tile lies in the
player mask. -/
lemma pac_center_mem (cx cy : ℤ) (h1 : 0 ≤ cx) (h2 : cx < 28)
    (h3 : 0 ≤ cy) (h4 : cy < 31) (ho : is_open_for_pac cx cy = true) :
    pacMaskAt (4 * cx + 2) (2 * cy + 2) = true := by
  obtain ⟨hw, hg⟩ := open_pac_elim ho
  have hx : ((cx.toNat : ℤ)) = cx := Int.toNat_of_nonneg h1
  have hy : ((cy.toNat : ℤ)) = cy := Int.toNat_of_nonneg h3
  unfold pacMaskAt
  rw [Bool.and_eq_true]
  refine ⟨?_, ?_⟩
  · simp only [onScreen, W, H, MAZE_W_eq, decide_eq_true_eq]
    omega
  · refine List.any_eq_true.mpr ⟨cy.toNat, List.mem_range.mpr (by rw [ROWS_eq]; omega), ?_⟩
    refine List.any_eq_true.mpr ⟨cx.toNat, List.mem_range.mpr (by rw [COLS_eq]; omega), ?_⟩
    unfold pac_cell_pixels
    simp only [cell_center_eq, hx, hy]
    simp [hw, ho]

/-- Introduction: the centre pixel of any pursuer-open tile lies in the
pursuer mask. -/
lemma ghost_center_mem (cx cy : ℤ) (h1 : 0 ≤ cx) (h2 : cx < 28)
    (h3 : 0 ≤ cy) (h4 : cy < 31) (ho : is_open_for_ghost cx cy = true) :
    ghostMaskAt (4 * cx + 2) (2 * cy + 2) = true := by
  have hfil := ghost_open_filter ho
  have hx : ((cx.toNat : ℤ)) = cx := Int.toNat_of_nonneg h1
  have hy : ((cy.toNat : ℤ)) = cy := Int.toNat_of_nonneg h3
  unfold ghostMaskAt
  rw [Bool.and_eq_true]
  refine ⟨?_, ?_⟩
  · simp only [onScreen, W, H, MAZE_W_eq, decide_eq_true_eq]
    omega
  · rw [Bool.or_eq_true]
    refine Or.inl ?_
    refine List.any_eq_true.mpr ⟨cy.toNat, List.mem_range.mpr (by rw [ROWS_eq]; omega), ?_⟩
    refine List.any_eq_true.mpr ⟨cx.toNat, List.mem_range.mpr (by rw [COLS_eq]; omega), ?_⟩
    unfold ghost_cell_pixels
    simp only [cell_center_eq, hx, hy]
    simp [hfil, ho]

/-- Elimination: every player-mask pixel is a tile centre of a player-open
tile, or lies on a horizontal / vertical band between two adjacent
player-open tiles. -/
lemma pacMask_elim {x y : ℤ} (h : pacMaskAt x y = true) :
    ∃ cx cy : ℕ, cx < 28 ∧ cy < 31 ∧
      ((is_open_for_pac cx cy = true ∧ x = 4 * cx + 2 ∧ y = 2 * cy + 2) ∨
       (cx + 1 < 28 ∧ is_open_for_pac cx cy = true ∧
         is_open_for_pac (cx + 1 : ℕ) cy = true ∧ y = 2 * cy + 2 ∧
         4 * cx + 2 ≤ x ∧ x ≤ 4 * cx + 6) ∨
       (cy + 1 < 31 ∧ is_open_for_pac cx cy = true ∧
         is_open_for_pac cx (cy + 1 : ℕ) = true ∧ x = 4 * cx + 2 ∧
         2 * cy + 2 ≤ y ∧ y ≤ 2 * cy + 4)) := by
  unfold pacMaskAt at h
  rw [Bool.and_eq_true] at h
  obtain ⟨-, hany⟩ := h
  obtain ⟨cy, hcy, h2⟩ := List.any_eq_true.mp hany
  obtain ⟨cx, hcx, h3⟩ := List.any_eq_true.mp h2
  rw [List.mem_range, ROWS_eq] at hcy
  rw [List.mem_range, COLS_eq] at hcx
  refine ⟨cx, cy, hcx, hcy, ?_⟩
  unfold pac_cell_pixels at h3
  simp only [cell_center_eq, COLS_eq, ROWS_eq, Bool.and_eq_true, Bool.or_eq_true,
    beq_iff_eq, decide_eq_true_eq, and_assoc, or_assoc] at h3
  obtain ⟨-, hcase⟩ := h3
  rcases hcase with ⟨ho, hx, hy⟩ | ⟨hlt, -, ho1, ho2, hm1, hm2, hy⟩ |
    ⟨hlt, -, ho1, ho2, hm1, hm2, hx⟩
  · exact Or.inl ⟨ho, hx, hy⟩
  · refine Or.inr (Or.inl ⟨hlt, ho1, ho2, hy, ?_, ?_⟩) <;>
      push_cast at hm1 hm2 ⊢ <;> omega
  · refine Or.inr (Or.inr ⟨hlt, ho1, ho2, hx, ?_, ?_⟩) <;>
      push_cast at hm1 hm2 ⊢ <;> omega

/-- Elimination for the pursuer mask; the extra gate-centre pixels from
the final loop of `build_centerline_masks` fall under the tile-centre
case because gate tiles are pursuer-open. -/
lemma ghostMask_elim {x y : ℤ} (h : ghostMaskAt x y = true) :
    ∃ cx cy : ℕ, cx < 28 ∧ cy < 31 ∧
      ((is_open_for_ghost cx cy = true ∧ x = 4 * cx + 2 ∧ y = 2 * cy + 2) ∨
       (cx + 1 < 28 ∧ is_open_for_ghost cx cy = true ∧
         is_open_for_ghost (cx + 1 : ℕ) cy = true ∧ y = 2 * cy + 2 ∧
         4 * cx + 2 ≤ x ∧ x ≤ 4 * cx + 6) ∨
       (cy + 1 < 31 ∧ is_open_for_ghost cx cy = true ∧
         is_open_for_ghost cx (cy + 1 : ℕ) = true ∧ x = 4 * cx + 2 ∧
         2 * cy + 2 ≤ y ∧ y ≤ 2 * cy + 4)) := by
  unfold ghostMaskAt at h
  rw [Bool.and_eq_true] at h
  obtain ⟨-, hany⟩ := h
  rw [Bool.or_eq_true] at hany
  rcases hany with hany | hgate
  · obtain ⟨cy, hcy, h2⟩ := List.any_eq_true.mp hany
    obtain ⟨cx, hcx, h3⟩ := List.any_eq_true.mp h2
    rw [List.mem_range, ROWS_eq] at hcy
    rw [List.mem_range, COLS_eq] at hcx
    refine ⟨cx, cy, hcx, hcy, ?_⟩
    unfold ghost_cell_pixels at h3
    simp only [cell_center_eq, COLS_eq, ROWS_eq, Bool.and_eq_true, Bool.or_eq_true,
      beq_iff_eq, decide_eq_true_eq, and_assoc, or_assoc] at h3
    obtain ⟨hfil, hcase⟩ := h3
    have hopen := filter_ghost_open hfil
    rcases hcase with ⟨ho, hx, hy⟩ | ⟨hlt, ho2, hm1, hm2, hy⟩ | ⟨hlt, ho2, hm1, hm2, hx⟩
    · exact Or.inl ⟨ho, hx, hy⟩
    · refine Or.inr (Or.inl ⟨hlt, hopen, ho2, hy, ?_, ?_⟩) <;>
        push_cast at hm1 hm2 ⊢ <;> omega
    · refine Or.inr (Or.inr ⟨hlt, hopen, ho2, hx, ?_, ?_⟩) <;>
        push_cast at hm1 hm2 ⊢ <;> omega
  · obtain ⟨gcx, hmem, hbeq⟩ := List.any_eq_true.mp hgate
    simp only [cell_center_eq, GATE_CY, Bool.and_eq_true, beq_iff_eq] at hbeq
    obtain ⟨hx, hy⟩ := hbeq
    have hmem' : gcx = 11 ∨ gcx = 12 ∨ gcx = 13 ∨ gcx = 14 ∨ gcx = 15 ∨ gcx = 16 := by
      simpa [GATE_XS] using hmem
    rcases hmem' with h' | h' | h' | h' | h' | h'
    · subst h'
      exact ⟨11, 12, by norm_num, by norm_num,
        Or.inl ⟨by decide, by push_cast; omega, by push_cast; omega⟩⟩
    · subst h'
      exact ⟨12, 12, by norm_num, by norm_num,
        Or.inl ⟨by decide, by push_cast; omega, by push_cast; omega⟩⟩
    · subst h'
      exact ⟨13, 12, by norm_num, by norm_num,
        Or.inl ⟨by decide, by push_cast; omega, by push_cast; omega⟩⟩
    · subst h'
      exact ⟨14, 12, by norm_num, by norm_num,
        Or.inl ⟨by decide, by push_cast; omega, by push_cast; omega⟩⟩
    · subst h'
      exact ⟨15, 12, by norm_num, by norm_num,
        Or.inl ⟨by decide, by push_cast; omega, by push_cast; omega⟩⟩
    · subst h'
      exact ⟨16, 12, by norm_num, by norm_num,
        Or.inl ⟨by decide, by push_cast; omega, by push_cast; omega⟩⟩

/-- Snapping the `y`-coordinate of a player-mask pixel to the centre of
the row chosen by `px_to_cell` stays inside the player mask (the `y = ly`
assignment of `tunnel_wrap_on_centerline`). -/
lemma pacMask_snap {x y : ℤ} (h : pacMaskAt x y = true) :
    pacMaskAt x (2 * (px_to_cell x y).2 + 2) = true := by
  obtain ⟨cx, cy, hcx, hcy, hcase⟩ := pacMask_elim h
  rcases hcase with ⟨ho, hx, hy⟩ | ⟨hlt, ho1, ho2, hy, hx1, hx2⟩ |
    ⟨hlt, ho1, ho2, hx, hy1, hy2⟩
  · have hk : (px_to_cell x y).2 = (cy : ℤ) := by
      rw [hy]
      exact px_to_cell_snd_center x cy (by omega) (by omega)
    rw [hk, ← hy]
    exact h
  · have hk : (px_to_cell x y).2 = (cy : ℤ) := by
      rw [hy]
      exact px_to_cell_snd_center x cy (by omega) (by omega)
    rw [hk, ← hy]
    exact h
  · have hy' : y = 2 * (cy : ℤ) + 2 ∨ y = 2 * (cy : ℤ) + 3 ∨ y = 2 * (cy : ℤ) + 4 := by
      omega
    rcases hy' with hy' | hy' | hy'
    · have hk : (px_to_cell x y).2 = (cy : ℤ) := by
        rw [hy']
        exact px_to_cell_snd_center x cy (by omega) (by omega)
      rw [hk, ← hy']
      exact h
    · have hk := px_to_cell_snd_mid x cy (by omega) (by omega)
      rw [← hy'] at hk
      subst hx
      rcases hk with hk | hk <;> rw [hk]
      · exact pac_center_mem cx cy (by omega) (by omega) (by omega) (by omega) ho1
      · have : ((cy : ℤ) + 1) = ((cy + 1 : ℕ) : ℤ) := by push_cast; ring
        rw [this]
        exact pac_center_mem cx (cy + 1 : ℕ) (by omega) (by omega) (by omega)
          (by push_cast; omega) ho2
    · have hk : (px_to_cell x y).2 = (cy : ℤ) + 1 := by
        have h4 : y = 2 * ((cy : ℤ) + 1) + 2 := by omega
        rw [h4]
        exact px_to_cell_snd_center x ((cy : ℤ) + 1) (by omega) (by omega)
      rw [hk, ← (by omega : y = 2 * ((cy : ℤ) + 1) + 2)]
      exact h

/-- Ghost-mask version of `pacMask_snap`. -/
lemma ghostMask_snap {x y : ℤ} (h : ghostMaskAt x y = true) :
    ghostMaskAt x (2 * (px_to_cell x y).2 + 2) = true := by
  obtain ⟨cx, cy, hcx, hcy, hcase⟩ := ghostMask_elim h
  rcases hcase with ⟨ho, hx, hy⟩ | ⟨hlt, ho1, ho2, hy, hx1, hx2⟩ |
    ⟨hlt, ho1, ho2, hx, hy1, hy2⟩
  · have hk : (px_to_cell x y).2 = (cy : ℤ) := by
      rw [hy]
      exact px_to_cell_snd_center x cy (by omega) (by omega)
    rw [hk, ← hy]
    exact h
  · have hk : (px_to_cell x y).2 = (cy : ℤ) := by
      rw [hy]
      exact px_to_cell_snd_center x cy (by omega) (by omega)
    rw [hk, ← hy]
    exact h
  · have hy' : y = 2 * (cy : ℤ) + 2 ∨ y = 2 * (cy : ℤ) + 3 ∨ y = 2 * (cy : ℤ) + 4 := by
      omega
    rcases hy' with hy' | hy' | hy'
    · have hk : (px_to_cell x y).2 = (cy : ℤ) := by
        rw [hy']
        exact px_to_cell_snd_center x cy (by omega) (by omega)
      rw [hk, ← hy']
      exact h
    · have hk := px_to_cell_snd_mid x cy (by omega) (by omega)
      rw [← hy'] at hk
      subst hx
      rcases hk with hk | hk <;> rw [hk]
      · exact ghost_center_mem cx cy (by omega) (by omega) (by omega) (by omega) ho1
      · have : ((cy : ℤ) + 1) = ((cy + 1 : ℕ) : ℤ) := by push_cast; ring
        rw [this]
        exact ghost_center_mem cx (cy + 1 : ℕ) (by omega) (by omega) (by omega)
          (by push_cast; omega) ho2
    · have hk : (px_to_cell x y).2 = (cy : ℤ) + 1 := by
        have h4 : y = 2 * ((cy : ℤ) + 1) + 2 := by omega
        rw [h4]
        exact px_to_cell_snd_center x ((cy : ℤ) + 1) (by omega) (by omega)
      rw [hk, ← (by omega : y = 2 * ((cy : ℤ) + 1) + 2)]
      exact h

/-- The tunnel wrap maps player-mask pixels to player-mask pixels. -/
lemma wrap_preserves_pac (x y dirx : ℤ) (h : pacMaskAt x y = true) :
    pacMaskAt (tunnel_wrap x y dirx).1 (tunnel_wrap x y dirx).2 = true := by
  unfold tunnel_wrap
  cases htr : in_tunnel_rows (px_to_cell x y).2 with
  | false => simpa [htr] using h
  | true =>
    obtain ⟨h0, h30, -, -⟩ := in_tunnel_rows_elim htr
    simp only [htr, Bool.not_true, Bool.false_eq_true, if_false]
    split_ifs with h1 h2
    · rw [cell_center_eq, COLS_int]
      have := pac_center_mem 27 (px_to_cell x y).2 (by norm_num) (by norm_num)
        h0 (by omega) (tunnel_row_pac_open27 htr)
      simpa using this
    · rw [cell_center_eq]
      have := pac_center_mem 0 (px_to_cell x y).2 (by norm_num) (by norm_num)
        h0 (by omega) (tunnel_row_pac_open0 htr)
      simpa using this
    · rw [cell_center_eq]
      simpa using pacMask_snap h

/-- The tunnel wrap maps pursuer-mask pixels to pursuer-mask pixels. -/
lemma wrap_preserves_ghost (x y dirx : ℤ) (h : ghostMaskAt x y = true) :
    ghostMaskAt (tunnel_wrap x y dirx).1 (tunnel_wrap x y dirx).2 = true := by
  unfold tunnel_wrap
  cases htr : in_tunnel_rows (px_to_cell x y).2 with
  | false => simpa [htr] using h
  | true =>
    obtain ⟨h0, h30, hg0, hg27⟩ := in_tunnel_rows_elim htr
    simp only [htr, Bool.not_true, Bool.false_eq_true, if_false]
    split_ifs with h1 h2
    · rw [cell_center_eq, COLS_int]
      have := ghost_center_mem 27 (px_to_cell x y).2 (by norm_num) (by norm_num)
        h0 (by omega) hg27
      simpa using this
    · rw [cell_center_eq]
      have := ghost_center_mem 0 (px_to_cell x y).2 (by norm_num) (by norm_num)
        h0 (by omega) hg0
      simpa using this
    · rw [cell_center_eq]
      simpa using ghostMask_snap h

/-- Mask membership implies the `can_stand` bound checks (mask pixels lie
on the visible screen by the `setpix` guard). -/
lemma mask_can_stand {mask : ℤ → ℤ → Bool} {x y : ℤ}
    (hb : mask x y = true →
      (decide (0 ≤ x ∧ x < W ∧ 0 ≤ y ∧ y < H) : Bool) = true)
    (h : mask x y = true) : can_stand mask x y = true := by
  unfold can_stand
  rw [Bool.and_eq_true]
  exact ⟨hb h, h⟩

lemma pacMask_bounds {x y : ℤ} (h : pacMaskAt x y = true) :
    (decide (0 ≤ x ∧ x < W ∧ 0 ≤ y ∧ y < H) : Bool) = true := by
  unfold pacMaskAt at h
  rw [Bool.and_eq_true] at h
  have := h.1
  simp only [onScreen, decide_eq_true_eq] at this
  simp only [decide_eq_true_eq]
  exact ⟨this.1, this.2.1, this.2.2.1, this.2.2.2.1⟩

lemma ghostMask_bounds {x y : ℤ} (h : ghostMaskAt x y = true) :
    (decide (0 ≤ x ∧ x < W ∧ 0 ≤ y ∧ y < H) : Bool) = true := by
  unfold ghostMaskAt at h
  rw [Bool.and_eq_true] at h
  have := h.1
  simp only [onScreen, decide_eq_true_eq] at this
  simp only [decide_eq_true_eq]
  exact ⟨this.1, this.2.1, this.2.2.1, this.2.2.2.1⟩

lemma can_stand_pac_of_mask {x y : ℤ} (h : pacMaskAt x y = true) :
    can_stand pacMaskAt x y = true :=
  mask_can_stand (fun h2 => pacMask_bounds h2) h

lemma can_stand_ghost_of_mask {x y : ℤ} (h : ghostMaskAt x y = true) :
    can_stand ghostMaskAt x y = true :=
  mask_can_stand (fun h2 => ghostMask_bounds h2) h

/-- The one-pixel player step (wrap + guarded step) preserves the player
mask. -/
lemma pac_step_preserves (x y dx dy : ℤ) (h : can_stand pacMaskAt x y = true) :
    can_stand pacMaskAt (pac_step_pixel x y dx dy).1
      (pac_step_pixel x y dx dy).2 = true := by
  have hmask : pacMaskAt x y = true := (Bool.and_eq_true _ _ ▸ h).2
  unfold pac_step_pixel
  by_cases hdx : dx ≠ 0
  · simp only [if_pos hdx]
    split_ifs with hstep
    · exact hstep
    · exact can_stand_pac_of_mask (wrap_preserves_pac x y dx hmask)
  · simp only [if_neg hdx]
    split_ifs with hstep
    · exact hstep
    · exact h

/-- The one-pixel pursuer step preserves the pursuer mask. -/
lemma ghost_step_preserves (x y dx dy : ℤ)
    (h : can_stand ghostMaskAt x y = true) :
    can_stand ghostMaskAt (ghost_step_pixel x y dx dy).1
      (ghost_step_pixel x y dx dy).2 = true := by
  have hmask : ghostMaskAt x y = true := (Bool.and_eq_true _ _ ▸ h).2
  unfold ghost_step_pixel
  by_cases hdx : dx ≠ 0
  · simp only [if_pos hdx]
    split_ifs with hstep
    · exact hstep
    · exact can_stand_ghost_of_mask (wrap_preserves_ghost x y dx hmask)
  · simp only [if_neg hdx]
    split_ifs with hstep
    · exact hstep
    · exact h

/-!  Facts about the stable insertion sort used to model `list.sort`. -/

lemma mem_insert_by_key {key : (ℤ × ℤ) → ℤ} {a b : ℤ × ℤ} {l : List (ℤ × ℤ)} :
    b ∈ insert_by_key key a l ↔ b = a ∨ b ∈ l := by
  induction l with
  | nil => simp [insert_by_key]
  | cons c cs ih =>
    unfold insert_by_key
    split_ifs with hle
    · simp [List.mem_cons]
    · simp only [List.mem_cons, ih]
      tauto

lemma mem_sort_by_key {key : (ℤ × ℤ) → ℤ} {b : ℤ × ℤ} {l : List (ℤ × ℤ)} :
    b ∈ sort_by_key key l ↔ b ∈ l := by
  induction l with
  | nil => simp [sort_by_key]
  | cons c cs ih =>
    unfold sort_by_key at ih ⊢
    rw [List.foldr_cons, mem_insert_by_key, ih, List.mem_cons]

lemma sort_by_key_nonempty {key : (ℤ × ℤ) → ℤ} {l : List (ℤ × ℤ)}
    (h : l ≠ []) : sort_by_key key l ≠ [] := by
  cases hl : sort_by_key key l with
  | nil =>
    cases l with
    | nil => exact absurd rfl h
    | cons c cs =>
      have : c ∈ sort_by_key key (c :: cs) := mem_sort_by_key.mpr (List.mem_cons_self c cs)
      rw [hl] at this
      exact absurd this (List.not_mem_nil c)
  | cons d ds => simp

lemma insert_by_key_head_le (key : (ℤ × ℤ) → ℤ) (a : ℤ × ℤ) (l : List (ℤ × ℤ))
    (d0 : ℤ × ℤ) :
    key ((insert_by_key key a l).headD d0) ≤ key a ∧
      (l ≠ [] → key ((insert_by_key key a l).headD d0) ≤ key (l.headD d0)) := by
  cases l with
  | nil => simp [insert_by_key]
  | cons c cs =>
    unfold insert_by_key
    split_ifs with hle
    · simp only [List.headD_cons]
      exact ⟨le_refl _, fun _ => hle⟩
    · simp only [List.headD_cons]
      exact ⟨by omega, fun _ => le_refl _⟩

/-- The head of the stable sort attains the minimal key. -/
lemma sort_by_key_head_min (key : (ℤ × ℤ) → ℤ) {l : List (ℤ × ℤ)}
    {a : ℤ × ℤ} (ha : a ∈ l) (d0 : ℤ × ℤ) :
    key ((sort_by_key key l).headD d0) ≤ key a := by
  induction l with
  | nil => cases ha
  | cons c cs ih =>
    have hfold : sort_by_key key (c :: cs) = insert_by_key key c (sort_by_key key cs) := by
      unfold sort_by_key
      rw [List.foldr_cons]
    rcases List.mem_cons.mp ha with rfl | ha'
    · rw [hfold]
      exact (insert_by_key_head_le key a (sort_by_key key cs) d0).1
    · have h1 := ih ha'
      have hne : sort_by_key key cs ≠ [] :=
        sort_by_key_nonempty (List.ne_nil_of_mem ha')
      have h2 := (insert_by_key_head_le key c (sort_by_key key cs) d0).2 hne
      rw [hfold]
      omega

/-!  A closed form for the candidate fold of `build_pellets`. -/

lemma build_pellets_foldl (R : Finset (ℤ × ℤ)) (cs : List (ℤ × ℤ))
    (P Q : Finset (ℤ × ℤ)) :
    (cs.foldl
      (fun (pp : Finset (ℤ × ℤ) × Finset (ℤ × ℤ)) c =>
        if c ∈ R then (pp.1.erase c, insert c pp.2) else pp) (P, Q)).1 =
      P \ (cs.filter (fun c => c ∈ R)).toFinset ∧
    (cs.foldl
      (fun (pp : Finset (ℤ × ℤ) × Finset (ℤ × ℤ)) c =>
        if c ∈ R then (pp.1.erase c, insert c pp.2) else pp) (P, Q)).2 =
      Q ∪ (cs.filter (fun c => c ∈ R)).toFinset := by
  induction cs generalizing P Q with
  | nil => simp
  | cons c cs ih =>
    rw [List.foldl_cons]
    by_cases hc : c ∈ R
    · simp only [if_pos hc, List.filter_cons, decide_eq_true hc, if_pos]
      obtain ⟨ih1, ih2⟩ := ih (P.erase c) (insert c Q)
      constructor
      · rw [ih1, List.toFinset_cons, Finset.erase_eq]
        ext a
        simp only [Finset.mem_sdiff, Finset.mem_singleton, Finset.mem_insert,
          List.mem_toFinset]
        tauto
      · rw [ih2, List.toFinset_cons]
        ext a
        simp only [Finset.mem_union, Finset.mem_insert, List.mem_toFinset]
        tauto
    · simp only [if_neg hc, List.filter_cons]
      rw [if_neg (by simpa using hc)]
      exact ih P Q

/-!  Claim theorems. -/

/-- C5: on a tunnel row, an entity moving left (`dirx < 0`) at or past the
leftmost tile-centre pixel of that row is relocated by the tunnel-wrap
step to the tile-centre pixel of the maximum column of the same row, and
symmetrically an entity moving right at or past the rightmost tile-centre
pixel is relocated to the tile-centre of column 0 (the wrap step does not
touch the direction). -/
theorem c5_tunnel_wrap_edges (x y dirx : ℤ)
    (ht : in_tunnel_rows (px_to_cell x y).2 = true) :
    (dirx < 0 → x ≤ (cell_center 0 (px_to_cell x y).2).1 →
      tunnel_wrap x y dirx = cell_center ((COLS : ℤ) - 1) (px_to_cell x y).2) ∧
    (dirx > 0 → x ≥ (cell_center ((COLS : ℤ) - 1) (px_to_cell x y).2).1 →
      tunnel_wrap x y dirx = cell_center 0 (px_to_cell x y).2) := by
  unfold tunnel_wrap
  simp only [ht, Bool.not_true, Bool.false_eq_true, if_false]
  constructor
  · intro h1 h2
    rw [if_pos ⟨h1, h2⟩]
  · intro h1 h2
    split_ifs with ha hb
    · exact absurd h1 (by omega)
    · rfl
    · exact absurd ⟨h1, h2⟩ hb

theorem c5_witness :
    in_tunnel_rows (px_to_cell 2 22).2 = true ∧
    tunnel_wrap 2 22 (-1) = (110, 22) ∧
    tunnel_wrap 110 22 1 = (2, 22) := by
  refine ⟨by decide, ?_, ?_⟩
  · rw [(c5_tunnel_wrap_edges 2 22 (-1) (by decide)).1 (by norm_num) (by decide)]
    decide
  · rw [(c5_tunnel_wrap_edges 110 22 1 (by decide)).2 (by norm_num) (by decide)]
    decide

/-- C10: for any entity whose pixel rounds to a tunnel row, the tunnel
wrap unconditionally sets the vertical coordinate to that row's
tile-centre `y` (and leaves `x` unchanged when neither edge is being
crossed), while for an entity not on a tunnel row the wrap leaves both
coordinates unchanged. -/
theorem c10_wrap_row_snap (x y dirx : ℤ) :
    (in_tunnel_rows (px_to_cell x y).2 = true →
      (tunnel_wrap x y dirx).2 = 2 * (px_to_cell x y).2 + 2 ∧
      (¬(dirx < 0 ∧ x ≤ (cell_center 0 (px_to_cell x y).2).1) →
       ¬(dirx > 0 ∧ x ≥ (cell_center ((COLS : ℤ) - 1) (px_to_cell x y).2).1) →
        (tunnel_wrap x y dirx).1 = x)) ∧
    (in_tunnel_rows (px_to_cell x y).2 = false →
      tunnel_wrap x y dirx = (x, y)) := by
  constructor
  · intro ht
    unfold tunnel_wrap
    simp only [ht, Bool.not_true, Bool.false_eq_true, if_false]
    constructor
    · split_ifs with h1 h2 <;> simp [cell_center_eq]
    · intro hn1 hn2
      rw [if_neg hn1, if_neg hn2]
  · intro ht
    unfold tunnel_wrap
    simp [ht]

theorem c10_witness :
    in_tunnel_rows (px_to_cell 50 23).2 = true ∧
    tunnel_wrap 50 23 1 = (50, 22) ∧
    in_tunnel_rows (px_to_cell 50 4).2 = false ∧
    tunnel_wrap 50 4 1 = (50, 4) := by
  refine ⟨by decide, ?_, by decide, ?_⟩
  · obtain ⟨hy, hx⟩ := (c10_wrap_row_snap 50 23 1).1 (by decide)
    have hx' := hx (by decide) (by decide)
    have : tunnel_wrap 50 23 1 = ((tunnel_wrap 50 23 1).1, (tunnel_wrap 50 23 1).2) := rfl
    rw [this, hx', hy]
    decide
  · exact (c10_wrap_row_snap 50 4 1).2 (by decide)

/-- C1: the standing-mask invariant.  Every operation of the simulation
loop that moves an entity maps mask pixels to mask pixels: the tunnel
wrap (for either mask), the one-pixel player step and the one-pixel
pursuer step; and every respawn/reset placement target — the player's
start-tile centre and each pursuer's home-tile centre (used by
`reset_level`, `new_game`, the death respawn and the frightened-capture
teleport) — satisfies the respective mask.  Hence every reachable
position satisfies `can_stand` on its entity's mask. -/
theorem c1_standing_mask_invariant :
    (∀ x y dirx : ℤ, can_stand pacMaskAt x y = true →
      can_stand pacMaskAt (tunnel_wrap x y dirx).1 (tunnel_wrap x y dirx).2 = true) ∧
    (∀ x y dirx : ℤ, can_stand ghostMaskAt x y = true →
      can_stand ghostMaskAt (tunnel_wrap x y dirx).1 (tunnel_wrap x y dirx).2 = true) ∧
    (∀ x y dx dy : ℤ, can_stand pacMaskAt x y = true →
      can_stand pacMaskAt (pac_step_pixel x y dx dy).1
        (pac_step_pixel x y dx dy).2 = true) ∧
    (∀ x y dx dy : ℤ, can_stand ghostMaskAt x y = true →
      can_stand ghostMaskAt (ghost_step_pixel x y dx dy).1
        (ghost_step_pixel x y dx dy).2 = true) ∧
    can_stand pacMaskAt (cell_center pick_start_tile_pac.1 pick_start_tile_pac.2).1
      (cell_center pick_start_tile_pac.1 pick_start_tile_pac.2).2 = true ∧
    (∀ n : GhostName, can_stand ghostMaskAt
      (cell_center (ghost_home_tile n).1 (ghost_home_tile n).2).1
      (cell_center (ghost_home_tile n).1 (ghost_home_tile n).2).2 = true) := by
  refine ⟨?_, ?_, ?_, ?_, ?_, ?_⟩
  · intro x y dirx h
    exact can_stand_pac_of_mask
      (wrap_preserves_pac x y dirx (Bool.and_eq_true _ _ ▸ h).2)
  · intro x y dirx h
    exact can_stand_ghost_of_mask
      (wrap_preserves_ghost x y dirx (Bool.and_eq_true _ _ ▸ h).2)
  · exact pac_step_preserves
  · exact ghost_step_preserves
  · decide
  · intro n
    cases n <;> decide

theorem c1_witness :
    can_stand pacMaskAt (tunnel_wrap 2 22 (-1)).1 (tunnel_wrap 2 22 (-1)).2 = true ∧
    can_stand ghostMaskAt (ghost_step_pixel 54 30 0 (-1)).1
      (ghost_step_pixel 54 30 0 (-1)).2 = true ∧
    can_stand pacMaskAt (pac_step_pixel 58 60 (-1) 0).1
      (pac_step_pixel 58 60 (-1) 0).2 = true :=
  ⟨c1_standing_mask_invariant.1 2 22 (-1) (by decide),
   c1_standing_mask_invariant.2.2.2.1 54 30 0 (-1) (by decide),
   c1_standing_mask_invariant.2.2.1 58 60 (-1) 0 (by decide)⟩

/-- C2 counterexample: at pixel `(7, 4)` — a player-mask pixel strictly
between the tile centres `(6, 4)` and `(10, 4)` — a tick with desired
direction Left and current direction Right rewrites the current direction
to Left, even though the position is not a tile centre.  This refutes the
claim that the current direction is unchanged by a tick at any pixel
position that is not a tile centre. -/
theorem c2_counterexample :
    is_at_tile_center 7 4 = false ∧
    can_stand pacMaskAt 7 4 = true ∧
    pac_latch 7 4 DIR_R DIR_L = DIR_L ∧
    DIR_L ≠ DIR_R :=
  ⟨by decide, by decide, by decide, by decide⟩

/-- C2 (amended): the player's current direction changes only in ticks in
which the pixel one step in the desired direction is passable per the
player mask, in which case it becomes the desired direction; the latch
does not test for tile centres. -/
theorem c2_latch_characterization (px py : ℤ) (dir want : ℤ × ℤ) :
    (pac_latch px py dir want ≠ dir →
      can_stand pacMaskAt (px + want.1) (py + want.2) = true ∧
      pac_latch px py dir want = want) ∧
    (can_stand pacMaskAt (px + want.1) (py + want.2) = true →
      pac_latch px py dir want = want) ∧
    (can_stand pacMaskAt (px + want.1) (py + want.2) = false →
      pac_latch px py dir want = dir) := by
  unfold pac_latch
  refine ⟨?_, ?_, ?_⟩
  · intro h
    split_ifs at h ⊢ with hc
    · exact ⟨hc, rfl⟩
    · exact absurd rfl h
  · intro h
    rw [if_pos h]
  · intro h
    rw [if_neg (by simp [h])]

theorem c2_witness :
    can_stand pacMaskAt (7 + DIR_L.1) (4 + DIR_L.2) = true ∧
    pac_latch 7 4 DIR_R DIR_L = DIR_L :=
  (c2_latch_characterization 7 4 DIR_R DIR_L).1 (by decide)

/-- C4: exponential frightened-capture chain scoring.  A power-pellet
consumption resets the chain multiplier to zero; each frightened capture
increments the chain and adds `200 * 2 ^ (chain - 1)` to the score, so
the `k`-th consecutive capture after a power pellet adds exactly
`200 * 2 ^ (k - 1)` (increments 200, 400, 800, 1600 — ratio 1:2:4:8). -/
theorem c4_capture_chain_scoring :
    (∀ g : GameState,
      g.px = (cell_center (px_to_cell g.px g.py).1 (px_to_cell g.px g.py).2).1 →
      g.py = (cell_center (px_to_cell g.px g.py).1 (px_to_cell g.px g.py).2).2 →
      px_to_cell g.px g.py ∈ g.power →
      (eat_step g).fright_chain = 0) ∧
    (∀ (g : GameState) (n : GhostName),
      collide g.px g.py (g.ghosts n).x (g.ghosts n).y 1 = true →
      (g.ghosts n).fright > 0 →
      (ghost_collide g n).score =
        g.score + 200 * 2 ^ (max 0 (g.fright_chain + 1 - 1)) ∧
      (ghost_collide g n).fright_chain = g.fright_chain + 1) ∧
    (∀ s k : ℕ,
      (capture_iter s k).2 = k ∧
      (capture_iter s (k + 1)).1 = (capture_iter s k).1 + 200 * 2 ^ k) ∧
    (∀ s : ℕ, (capture_iter s 4).1 = s + 200 + 400 + 800 + 1600) := by
  have hchain : ∀ s k : ℕ, (capture_iter s k).2 = k := by
    intro s k
    induction k with
    | zero => rfl
    | succ k ih =>
      show (capture_score_update (capture_iter s k)).2 = k + 1
      unfold capture_score_update
      simp [ih]
  have hstep : ∀ s k : ℕ,
      (capture_iter s (k + 1)).1 = (capture_iter s k).1 + 200 * 2 ^ k := by
    intro s k
    show (capture_score_update (capture_iter s k)).1 = _
    unfold capture_score_update
    simp [hchain s k]
  have hiter : ∀ s k : ℕ, (capture_iter s k).2 = k ∧
      (capture_iter s (k + 1)).1 = (capture_iter s k).1 + 200 * 2 ^ k :=
    fun s k => ⟨hchain s k, hstep s k⟩
  refine ⟨?_, ?_, hiter, ?_⟩
  · intro g h1 h2 h3
    unfold eat_step
    rw [if_pos ⟨h1, h2⟩]
    by_cases hp : px_to_cell g.px g.py ∈ g.pellets
    · rw [if_pos hp, if_pos (by simpa using h3)]
    · rw [if_neg hp, if_pos (by simpa using h3)]
  · intro g n hcol hfr
    unfold ghost_collide
    rw [if_pos hcol, if_pos hfr]
    exact ⟨rfl, rfl⟩
  · intro s
    have h1 := (hiter s 0).2
    have h2 := (hiter s 1).2
    have h3 := (hiter s 2).2
    have h4 := (hiter s 3).2
    have h0 : (capture_iter s 0).1 = s := rfl
    norm_num at h1 h2 h3 h4
    omega

/-- A concrete playing state used to witness the capture-scoring claim:
the player stands at the tile centre `(6, 4)` which holds a power pellet,
and a frightened pursuer overlaps the player. -/
def c4_demo_state : GameState :=
  { score := 0, hiscore := 0, lives := 3, level := 1,
    pellets := ∅, power := {(1, 1)}, px := 6, py := 4,
    dir := DIR_L, want := DIR_L, p_acc := 0,
    ghosts := fun n =>
      { x := 6, y := 4, dir := DIR_U, fright := 5,
        home := ghost_home_tile n, acc := 0 },
    dead := false, dead_t := 0, fright_chain := 0, waiting := false,
    menu := false, menu_idx := 0 }

theorem c4_witness :
    (eat_step c4_demo_state).fright_chain = 0 ∧
    (ghost_collide c4_demo_state GhostName.blinky).score = 200 ∧
    (ghost_collide c4_demo_state GhostName.blinky).fright_chain = 1 := by
  refine ⟨?_, ?_, ?_⟩
  · exact c4_capture_chain_scoring.1 c4_demo_state (by decide) (by decide) (by decide)
  · have h := (c4_capture_chain_scoring.2.1 c4_demo_state GhostName.blinky
      (by decide) (by norm_num [c4_demo_state])).1
    simpa [c4_demo_state] using h
  · have h := (c4_capture_chain_scoring.2.1 c4_demo_state GhostName.blinky
      (by decide) (by norm_num [c4_demo_state])).2
    simpa [c4_demo_state] using h

/-- C6: whenever both the pellet set and the power set are empty, the
end-of-tick check increments the level by exactly one, resets lives to
the fixed starting count 3, and performs the full level reset
`reset_level` — whose definition rebuilds the pellet and power sets via
`build_pellets` from a fresh flood fill (their layout is characterised in
the C8 theorem) — returning the player to the start-tile centre and every
pursuer to its home-tile centre with direction, accumulators, frightened
timers and the chain multiplier reset, and re-entering the Waiting
state. -/
theorem c6_level_clear (g : GameState) (hp : g.pellets = ∅) (hq : g.power = ∅) :
    level_advance g = reset_level { g with level := g.level + 1, lives := 3 } ∧
    (level_advance g).level = g.level + 1 ∧
    (level_advance g).lives = 3 ∧
    (level_advance g).px = (cell_center pick_start_tile_pac.1 pick_start_tile_pac.2).1 ∧
    (level_advance g).py = (cell_center pick_start_tile_pac.1 pick_start_tile_pac.2).2 ∧
    (level_advance g).dir = DIR_L ∧
    (level_advance g).want = DIR_L ∧
    (level_advance g).p_acc = 0 ∧
    (∀ n, (level_advance g).ghosts n = ghost_at_home n) ∧
    (level_advance g).fright_chain = 0 ∧
    (level_advance g).waiting = true := by
  unfold level_advance
  rw [if_pos ⟨hp, hq⟩]
  exact ⟨rfl, rfl, rfl, rfl, rfl, rfl, rfl, rfl, fun n => rfl, rfl, rfl⟩

/-- A concrete state with both sets exhausted, at level 4 with one life
left, witnessing the level-clear transition. -/
def c6_demo_state : GameState :=
  { score := 3000, hiscore := 4000, lives := 1, level := 4,
    pellets := ∅, power := ∅, px := 58, py := 60,
    dir := DIR_L, want := DIR_L, p_acc := 0,
    ghosts := ghost_at_home,
    dead := false, dead_t := 0, fright_chain := 0, waiting := false,
    menu := false, menu_idx := 0 }

theorem c6_witness :
    (level_advance c6_demo_state).level = 5 ∧
    (level_advance c6_demo_state).lives = 3 ∧
    (level_advance c6_demo_state).waiting = true := by
  obtain ⟨-, h1, h2, -, -, -, -, -, -, -, h11⟩ :=
    c6_level_clear c6_demo_state rfl rfl
  exact ⟨h1, h2, h11⟩

/-- C7: colliding (Chebyshev distance at most 1) with a non-frightened
pursuer puts the game into the Dying sub-state with the death timer
cleared; once the accumulated death timer reaches the fixed one-second
duration, lives decrement by exactly one; with lives remaining the player
and every pursuer are repositioned to their start/home tile centres and
the state becomes Waiting, and with no lives remaining the high score is
updated when the score exceeds it and a new game begins at level 1 with
the starting lives count. -/
theorem c7_death_flow :
    (∀ (g : GameState) (n : GhostName),
      collide g.px g.py (g.ghosts n).x (g.ghosts n).y 1 = true →
      ¬((g.ghosts n).fright > 0) →
      (ghost_collide g n).dead = true ∧ (ghost_collide g n).dead_t = 0) ∧
    (∀ (g : GameState) (e : ℚ), g.dead = true → 1 ≤ g.dead_t + e →
      (1 < g.lives →
        (death_step g e).lives = g.lives - 1 ∧
        (death_step g e).dead = false ∧
        (death_step g e).waiting = true ∧
        (death_step g e).px =
          (cell_center pick_start_tile_pac.1 pick_start_tile_pac.2).1 ∧
        (death_step g e).py =
          (cell_center pick_start_tile_pac.1 pick_start_tile_pac.2).2 ∧
        (∀ n, ((death_step g e).ghosts n).x =
            (cell_center ((g.ghosts n).home.1) ((g.ghosts n).home.2)).1 ∧
          ((death_step g e).ghosts n).y =
            (cell_center ((g.ghosts n).home.1) ((g.ghosts n).home.2)).2 ∧
          ((death_step g e).ghosts n).fright = 0)) ∧
      (g.lives ≤ 1 →
        death_step g e =
          new_game (if g.score > g.hiscore then g.score else g.hiscore) ∧
        (death_step g e).level = 1 ∧
        (death_step g e).lives = 3 ∧
        (death_step g e).hiscore = max g.score g.hiscore)) := by
  constructor
  · intro g n hcol hfr
    unfold ghost_collide
    rw [if_pos hcol, if_neg hfr]
    exact ⟨rfl, rfl⟩
  · intro g e hdead ht
    simp only [death_step]
    rw [if_pos hdead, if_pos (show g.dead_t + e ≥ 1 from ht)]
    constructor
    · intro hl
      rw [if_neg (show ¬(g.lives - 1 ≤ 0) by omega)]
      exact ⟨rfl, rfl, rfl, rfl, rfl, fun n => ⟨rfl, rfl, rfl⟩⟩
    · intro hl
      rw [if_pos (show g.lives - 1 ≤ 0 by omega)]
      refine ⟨rfl, rfl, rfl, ?_⟩
      show (if g.score > g.hiscore then g.score else g.hiscore) = max g.score g.hiscore
      split_ifs <;> omega

/-- A concrete Dying state with three lives, and one with a single life
and a score above the high score, witnessing both death outcomes. -/
def c7_demo_state : GameState :=
  { score := 500, hiscore := 400, lives := 3, level := 2,
    pellets := {(1, 1)}, power := ∅, px := 58, py := 60,
    dir := DIR_L, want := DIR_L, p_acc := 0,
    ghosts := fun n =>
      { x := 58, y := 60, dir := DIR_U, fright := 0,
        home := ghost_home_tile n, acc := 0 },
    dead := false, dead_t := 0, fright_chain := 0, waiting := false,
    menu := false, menu_idx := 0 }

theorem c7_witness :
    (ghost_collide c7_demo_state GhostName.pinky).dead = true ∧
    (death_step { c7_demo_state with dead := true } 1).lives = 2 ∧
    (death_step { c7_demo_state with dead := true } 1).waiting = true ∧
    (death_step { c7_demo_state with dead := true, lives := 1 } 1).level = 1 ∧
    (death_step { c7_demo_state with dead := true, lives := 1 } 1).lives = 3 ∧
    (death_step { c7_demo_state with dead := true, lives := 1 } 1).hiscore = 500 := by
  refine ⟨?_, ?_, ?_, ?_, ?_, ?_⟩
  · exact (c7_death_flow.1 c7_demo_state GhostName.pinky (by decide)
      (by norm_num [c7_demo_state])).1
  · exact ((c7_death_flow.2 { c7_demo_state with dead := true } 1 rfl
      (by norm_num [c7_demo_state])).1 (by norm_num [c7_demo_state])).1
  · exact ((c7_death_flow.2 { c7_demo_state with dead := true } 1 rfl
      (by norm_num [c7_demo_state])).1 (by norm_num [c7_demo_state])).2.2.1
  · exact ((c7_death_flow.2 { c7_demo_state with dead := true, lives := 1 } 1 rfl
      (by norm_num [c7_demo_state])).2 (by norm_num)).2.1
  · exact ((c7_death_flow.2 { c7_demo_state with dead := true, lives := 1 } 1 rfl
      (by norm_num [c7_demo_state])).2 (by norm_num)).2.2.1
  · have h := ((c7_death_flow.2 { c7_demo_state with dead := true, lives := 1 } 1 rfl
      (by norm_num [c7_demo_state])).2 (by norm_num)).2.2.2
    simpa [c7_demo_state] using h

/-- C3 counterexample: at the tile centre `(6, 4)` (tile `(1, 1)`), with
current direction Right, target pixel `(7, 6)` and the pursuer not
frightened, the legal non-reverse candidates are Right and Down;
`ghost_choose_dir` deterministically returns Right (stable sort on the
one-pixel-ahead distance, which ties at 2), yet the Manhattan distance
from the *resulting tile* centre to the target is 5 for Right and 1 for
Down — so the returned direction does not minimise the resulting-tile
distance stated by the claim. -/
theorem c3_counterexample :
    is_at_tile_center 6 4 = true ∧
    ghost_possible_dirs 6 4 = [(1, 0), (0, 1)] ∧
    ghost_choose_dir_det 6 4 (1, 0) (7, 6) false = (1, 0) ∧
    ((0, 1) : ℤ × ℤ) ≠ (-(1 : ℤ), -(0 : ℤ)) ∧
    spec_resulting_tile_dist 6 4 7 6 (0, 1) <
      spec_resulting_tile_dist 6 4 7 6 (1, 0) :=
  ⟨by decide, by decide, by decide, by decide, by decide⟩

/-- C3 (amended): every possible return value of `ghost_choose_dir` is a
legal direction; it is never the reverse of the current direction unless
reversal is the only legal option; and on the branch where the random
tie-break is not taken, the returned direction minimises the Manhattan
distance *from the position one pixel ahead* to the target when not
frightened, and maximises it when frightened. -/
theorem c3_choose_dir_spec (gx gy : ℤ) (gdir target : ℤ × ℤ) (fright : Bool) :
    (∀ d ∈ ghost_choose_outcomes gx gy gdir target fright,
      ghost_possible_dirs gx gy ≠ [] →
      d ∈ ghost_choices (ghost_possible_dirs gx gy) gdir) ∧
    (∀ d ∈ ghost_choose_outcomes gx gy gdir target fright,
      (ghost_possible_dirs gx gy).filter
        (fun e => e != (-gdir.1, -gdir.2)) ≠ [] →
      d ≠ (-gdir.1, -gdir.2)) ∧
    (ghost_possible_dirs gx gy ≠ [] →
      ghost_choose_dir_det gx gy gdir target fright ∈
        ghost_choices (ghost_possible_dirs gx gy) gdir ∧
      ∀ d ∈ ghost_choices (ghost_possible_dirs gx gy) gdir,
        (fright = false →
          step_pixel_dist gx gy target.1 target.2
            (ghost_choose_dir_det gx gy gdir target fright) ≤
          step_pixel_dist gx gy target.1 target.2 d) ∧
        (fright = true →
          step_pixel_dist gx gy target.1 target.2 d ≤
          step_pixel_dist gx gy target.1 target.2
            (ghost_choose_dir_det gx gy gdir target fright))) := by
  have hchoices_ne : ghost_possible_dirs gx gy ≠ [] →
      ghost_choices (ghost_possible_dirs gx gy) gdir ≠ [] := by
    intro hne
    simp only [ghost_choices]
    split_ifs with hf
    · exact hne
    · exact hf
  have houtcome_mem : ∀ d ∈ ghost_choose_outcomes gx gy gdir target fright,
      ghost_possible_dirs gx gy ≠ [] →
      d ∈ ghost_choices (ghost_possible_dirs gx gy) gdir := by
    intro d hd hne
    simp only [ghost_choose_outcomes] at hd
    rw [if_neg hne] at hd
    exact mem_sort_by_key.mp (List.mem_of_mem_take hd)
  refine ⟨houtcome_mem, ?_, ?_⟩
  · intro d hd hfil
    have hne : ghost_possible_dirs gx gy ≠ [] := by
      intro h0
      rw [h0] at hfil
      exact hfil rfl
    have hdc := houtcome_mem d hd hne
    simp only [ghost_choices] at hdc
    rw [if_neg hfil] at hdc
    have := (List.mem_filter.mp hdc).2
    simpa using this
  · intro hne
    have hCne := hchoices_ne hne
    simp only [ghost_choose_dir_det]
    rw [if_neg hne]
    have hSne : sort_by_key (score_dir gx gy target.1 target.2 fright)
        (ghost_choices (ghost_possible_dirs gx gy) gdir) ≠ [] :=
      sort_by_key_nonempty hCne
    constructor
    · cases hS : sort_by_key (score_dir gx gy target.1 target.2 fright)
          (ghost_choices (ghost_possible_dirs gx gy) gdir) with
      | nil => exact absurd hS hSne
      | cons a as =>
        have ha : a ∈ sort_by_key (score_dir gx gy target.1 target.2 fright)
            (ghost_choices (ghost_possible_dirs gx gy) gdir) := by
          rw [hS]
          exact List.mem_cons_self a as
        simp only [List.headD_cons]
        exact mem_sort_by_key.mp ha
    · intro d hd
      have hmin := sort_by_key_head_min
        (score_dir gx gy target.1 target.2 fright) hd (0, 0)
      constructor
      · intro hfr
        subst hfr
        have hkeyfun : score_dir gx gy target.1 target.2 false =
            fun e => step_pixel_dist gx gy target.1 target.2 e := by
          funext e
          simp [score_dir]
        rw [hkeyfun] at hmin ⊢
        exact hmin
      · intro hfr
        subst hfr
        have hkeyfun : score_dir gx gy target.1 target.2 true =
            fun e => -step_pixel_dist gx gy target.1 target.2 e := by
          funext e
          simp [score_dir]
        rw [hkeyfun] at hmin ⊢
        have hmin2 : -step_pixel_dist gx gy target.1 target.2
            ((sort_by_key (fun e => -step_pixel_dist gx gy target.1 target.2 e)
              (ghost_choices (ghost_possible_dirs gx gy) gdir)).headD (0, 0)) ≤
            -step_pixel_dist gx gy target.1 target.2 d := hmin
        omega

theorem c3_witness :
    ghost_choose_dir_det 6 4 (1, 0) (7, 6) false ∈
      ghost_choices (ghost_possible_dirs 6 4) (1, 0) ∧
    step_pixel_dist 6 4 7 6 (ghost_choose_dir_det 6 4 (1, 0) (7, 6) false) ≤
      step_pixel_dist 6 4 7 6 (0, 1) := by
  have h := (c3_choose_dir_spec 6 4 (1, 0) (7, 6) false).2.2 (by decide)
  exact ⟨h.1, (h.2 (0, 1) (by decide)).1 rfl⟩

/-- Set-level description of `build_pellets`, for an arbitrary reachable
set. -/
lemma build_pellets_props (R : Finset (ℤ × ℤ)) :
    (build_pellets R).1 ∪ (build_pellets R).2 =
      R.filter (fun c => in_house c.1 c.2 = false) ∧
    (build_pellets R).1 ∩ (build_pellets R).2 = ∅ ∧
    (build_pellets R).2 = R ∩ power_candidates.toFinset ∧
    (build_pellets R).1 ∩ power_candidates.toFinset = ∅ := by
  have hfold := build_pellets_foldl R power_candidates
    (R.filter (fun c => in_house c.1 c.2 = false)) ∅
  have hb1 : (build_pellets R).1 =
      R.filter (fun c => in_house c.1 c.2 = false) \
        (power_candidates.filter (fun c => c ∈ R)).toFinset := by
    unfold build_pellets
    exact hfold.1
  have hb2 : (build_pellets R).2 =
      ∅ ∪ (power_candidates.filter (fun c => c ∈ R)).toFinset := by
    unfold build_pellets
    exact hfold.2
  have hCeq : (power_candidates.filter (fun c => c ∈ R)).toFinset =
      R ∩ power_candidates.toFinset := by
    ext a
    simp only [List.mem_toFinset, List.mem_filter, Finset.mem_inter,
      decide_eq_true_eq]
    tauto
  have hnohouse : ∀ a ∈ power_candidates.toFinset, in_house a.1 a.2 = false := by
    intro a ha
    rw [List.mem_toFinset] at ha
    have hcases : a = (1, 3) ∨ a = ((COLS : ℤ) - 2, 3) ∨ a = (1, 23) ∨
        a = ((COLS : ℤ) - 2, 23) := by
      simpa [power_candidates] using ha
    rcases hcases with h | h | h | h <;> subst h <;> decide
  have hsub : R ∩ power_candidates.toFinset ⊆
      R.filter (fun c => in_house c.1 c.2 = false) := by
    intro a ha
    rw [Finset.mem_inter] at ha
    rw [Finset.mem_filter]
    exact ⟨ha.1, hnohouse a ha.2⟩
  rw [hb1, hb2, hCeq, Finset.empty_union]
  refine ⟨?_, ?_, rfl, ?_⟩
  · exact Finset.sdiff_union_of_subset hsub
  · exact Finset.sdiff_inter_self _ _
  · ext a
    simp only [Finset.mem_sdiff, Finset.mem_filter, Finset.mem_inter,
      Finset.not_mem_empty, iff_false]
    rintro ⟨⟨⟨haR, -⟩, hnc⟩, hac⟩
    exact hnc ⟨haR, hac⟩

/-- C8: at every level start, the pellet and power sets built by
`build_pellets` from the flood fill out of the player's start tile
partition exactly the reachable non-house tiles: their union is the
reachable set minus house tiles, they are disjoint, the power set is
exactly the reachable corner candidates, and no corner candidate remains
a plain pellet. -/
theorem c8_pellet_layout :
    power_candidates = [(1, 3), (26, 3), (1, 23), (26, 23)] ∧
    (build_pellets (flood_reachable pick_start_tile_pac)).1 ∪
      (build_pellets (flood_reachable pick_start_tile_pac)).2 =
      (flood_reachable pick_start_tile_pac).filter
        (fun c => in_house c.1 c.2 = false) ∧
    (build_pellets (flood_reachable pick_start_tile_pac)).1 ∩
      (build_pellets (flood_reachable pick_start_tile_pac)).2 = ∅ ∧
    (build_pellets (flood_reachable pick_start_tile_pac)).2 =
      flood_reachable pick_start_tile_pac ∩ power_candidates.toFinset ∧
    (build_pellets (flood_reachable pick_start_tile_pac)).1 ∩
      power_candidates.toFinset = ∅ := by
  obtain ⟨h1, h2, h3, h4⟩ := build_pellets_props (flood_reachable pick_start_tile_pac)
  exact ⟨by decide, h1, h2, h3, h4⟩

/-- C9: the failing input — a non-rectangular layout obtained from the
fixed `WALLMAP` by extending row 1 with one extra character.  The program
performs no startup validation: the module-level startup computations on
this malformed layout proceed without any failure and produce exactly the
same tunnel rows and wall queries as on the well-formed layout (the
out-of-grid cell is silently ignored), instead of failing fast with a
diagnostic. -/
theorem c9_no_layout_validation :
    is_rectangular WALLMAP = true ∧
    is_rectangular BADMAP = false ∧
    tunnel_rows_gen BADMAP = tunnel_rows_gen WALLMAP ∧
    ∀ cx cy : ℤ, is_wall_gen BADMAP cx cy = is_wall_gen WALLMAP cx cy := by
  refine ⟨by decide, by decide, by decide, ?_⟩
  intro cx cy
  have hrows : rows_of BADMAP = rows_of WALLMAP := by decide
  have hcols : cols_of BADMAP = cols_of WALLMAP := by decide
  have hib : in_bounds_gen BADMAP cx cy = in_bounds_gen WALLMAP cx cy := by
    unfold in_bounds_gen
    rw [hrows, hcols]
  unfold is_wall_gen
  rw [hib]
  cases hbnd : in_bounds_gen WALLMAP cx cy with
  | false => simp [hbnd]
  | true =>
    simp only [hbnd, if_true]
    have hchars : ∀ a : ℕ, a < 28 → ∀ b : ℕ, b < 31 →
        ((BADMAP.getD b "").toList).getD a ' ' =
          ((WALLMAP.getD b "").toList).getD a ' ' := by decide
    have hbnd' := hbnd
    unfold in_bounds_gen at hbnd'
    rw [decide_eq_true_eq] at hbnd'
    have hc28 : cols_of WALLMAP = 28 := by decide
    have hr31 : rows_of WALLMAP = 31 := by decide
    rw [hc28, hr31] at hbnd'
    have hch : wallmap_char BADMAP cx cy = wallmap_char WALLMAP cx cy := by
      unfold wallmap_char
      exact hchars cx.toNat (by omega) cy.toNat (by omega)
    rw [hch]

end PacmanCore
